import Mathlib

/-!
Verification of the L3 address/route reconciliation core of portd
(`src/portd_l3.c`), as a shallow embedding in Lean 4.

Conventions of the embedding:
* C strings are `String`; possibly-NULL C strings are `Option String`.
* IP addresses are byte lists in network byte order (`List Nat`, each < 256),
  4 bytes for IPv4 and 16 for IPv6, exactly as `inet_pton` lays them out.
* Machine integers are `Nat`/`Int` with explicit truncation where the C code
  truncates (notably the `unsigned char` prefix length).
* Functions that can fail return `Option`/products with an `Int` return code,
  mirroring the C `-1`/`0` returns.
* Netlink sends and OVSDB transaction writes are modelled as event lists,
  so that ordering claims are about the emitted event sequence.
* `libc` routines used by the source (`inet_pton`, `inet_ntop`, `atoi`) are
  not part of the repository; they are modelled after their standard
  (BIND-derived) behaviour.
-/

namespace Portd

/-- The address families the code passes around (`AF_INET` / `AF_INET6`). -/
inductive Fam
  | af_inet
  | af_inet6
deriving DecidableEq, Repr

/-- `PORTD_IPV4_MAX_LEN` from portd.h. -/
def PORTD_IPV4_MAX_LEN : Nat := 32

/-- `PORTD_IPV6_MAX_LEN` from portd.h. -/
def PORTD_IPV6_MAX_LEN : Nat := 128

/-! ### libc: `atoi`, `inet_pton`, `inet_ntop` -/

/-- Digits accumulated by `atoi` (stops at the first non-digit). -/
def c_atoi_digits : List Char → Nat → Nat
  | [], acc => acc
  | c :: rest, acc =>
      if c.isDigit then c_atoi_digits rest (acc * 10 + (c.toNat - 48)) else acc

/-- C's `isspace` for the default locale. -/
def c_isspace (c : Char) : Bool :=
  c == ' ' || c == '\t' || c == '\n' || c == '\x0b' || c == '\x0c' || c == '\r'

/-- C `atoi`: optional whitespace, optional sign, leading digits; 0 when no
digits are found.  (Overflow is UB in C and unbounded here.) -/
def c_atoi (s : String) : Int :=
  match s.toList.dropWhile c_isspace with
  | '-' :: rest => - Int.ofNat (c_atoi_digits rest 0)
  | '+' :: rest => Int.ofNat (c_atoi_digits rest 0)
  | cs => Int.ofNat (c_atoi_digits cs 0)

/-- Conversion of an `int` value to C `unsigned char` (reduction mod 256). -/
def uchar_of_int (i : Int) : Nat := (i % 256).toNat

/-- Numeric value of a decimal digit string. -/
def decVal (cs : List Char) : Nat :=
  cs.foldl (fun a c => a * 10 + (c.toNat - 48)) 0

/-- Splitting a character list at every dot. -/
def split_dots : List Char → List (List Char)
  | [] => [[]]
  | c :: rest =>
      if c = '.' then [] :: split_dots rest
      else
        match split_dots rest with
        | g :: gs => (c :: g) :: gs
        | [] => [[c]]

/-- `inet_pton(AF_INET)`: exactly four dot-separated decimal octets, each
0..255, no empty group, no leading zero (BIND/glibc behaviour). -/
def inet_pton4 (s : String) : Option (List Nat) :=
  let groups := split_dots s.toList
  if groups.length = 4 ∧ groups.all fun cs =>
      !cs.isEmpty && cs.all Char.isDigit &&
        (cs.length == 1 || cs.head? != some '0') && decVal cs ≤ 255
  then some (groups.map decVal)
  else none

/-- Value of a hexadecimal digit character, if it is one. -/
def hexDigitVal (c : Char) : Option Nat :=
  if c.isDigit then some (c.toNat - 48)
  else if 'a' ≤ c ∧ c ≤ 'f' then some (c.toNat - 87)
  else if 'A' ≤ c ∧ c ≤ 'F' then some (c.toNat - 55)
  else none

/-- Final steps of `inet_pton(AF_INET6)`: flush the pending group, expand the
`::` gap recorded at byte position `colonp`, and require exactly 16 bytes. -/
def inet_pton6_finish (tmp : List Nat) (colonp : Option Nat) (saw_xdigit : Bool)
    (val : Nat) : Option (List Nat) :=
  let tmp2 : Option (List Nat) :=
    if saw_xdigit then
      if tmp.length + 2 > 16 then none
      else some (tmp ++ [val / 256, val % 256])
    else some tmp
  match tmp2 with
  | none => none
  | some t =>
    match colonp with
    | some cp =>
        if t.length = 16 then none
        else some (t.take cp ++ List.replicate (16 - t.length) 0 ++ t.drop cp)
    | none => if t.length = 16 then some t else none

/-- Main loop of `inet_pton(AF_INET6)` (BIND/glibc algorithm): `tmp` is what
has been written so far, `colonp` the byte position of `::` if seen, `curtok`
the suffix starting after the last `:` (used for an embedded IPv4 tail). -/
def inet_pton6_go (tmp : List Nat) (colonp : Option Nat) (saw_xdigit : Bool)
    (val : Nat) (curtok : List Char) : List Char → Option (List Nat)
  | [] => inet_pton6_finish tmp colonp saw_xdigit val
  | c :: rest =>
    match hexDigitVal c with
    | some d =>
        if val * 16 + d > 0xffff then none
        else inet_pton6_go tmp colonp true (val * 16 + d) curtok rest
    | none =>
        if c = ':' then
          if !saw_xdigit then
            match colonp with
            | some _ => none
            | none => inet_pton6_go tmp (some tmp.length) false val rest rest
          else
            if tmp.length + 2 > 16 then none
            else inet_pton6_go (tmp ++ [val / 256, val % 256]) colonp false 0 rest rest
        else if c = '.' ∧ tmp.length + 4 ≤ 16 then
          match inet_pton4 (String.mk curtok) with
          | some b4 => inet_pton6_finish (tmp ++ b4) colonp false 0
          | none => none
        else none

/-- `inet_pton(AF_INET6)`.  A single leading `:` must be followed by another. -/
def inet_pton6 (s : String) : Option (List Nat) :=
  match s.toList with
  | ':' :: rest =>
      match rest with
      | ':' :: _ => inet_pton6_go [] none false 0 rest rest
      | _ => none
  | cs => inet_pton6_go [] none false 0 cs cs

/-- `inet_pton`, dispatched on the family argument. -/
def inet_pton_f (family : Fam) (s : String) : Option (List Nat) :=
  match family with
  | .af_inet => inet_pton4 s
  | .af_inet6 => inet_pton6 s

/-- `inet_ntop(AF_INET)`: dotted decimal. -/
def inet_ntop4 (bytes : List Nat) : String :=
  String.intercalate "." (bytes.map toString)

/-- The eight 16-bit groups of an IPv6 byte string. -/
def words_of : List Nat → List Nat
  | b0 :: b1 :: rest => (b0 * 256 + b1) :: words_of rest
  | _ => []

/-- One step of the zero-run scan of `inet_ntop(AF_INET6)`. -/
def best_run_step (st : Option (Nat × Nat) × Option (Nat × Nat)) (iw : Nat × Nat) :
    Option (Nat × Nat) × Option (Nat × Nat) :=
  let (best, cur) := st
  if iw.2 = 0 then
    match cur with
    | none => (best, some (iw.1, 1))
    | some (b, l) => (best, some (b, l + 1))
  else
    match cur with
    | none => (best, none)
    | some c =>
        match best with
        | none => (some c, none)
        | some bb => (if c.2 > bb.2 then some c else some bb, none)

/-- The best (longest, first on ties) run of zero groups, dropped when shorter
than 2, as in `inet_ntop(AF_INET6)`. -/
def best_zero_run (ws : List Nat) : Option (Nat × Nat) :=
  let st : Option (Nat × Nat) × Option (Nat × Nat) :=
    ws.enum.foldl best_run_step (none, none)
  let best : Option (Nat × Nat) := match st with
    | (best, none) => best
    | (none, some c) => some c
    | (some bb, some c) => if c.2 > bb.2 then some c else some bb
  match best with
  | some (_, l) => if l < 2 then none else best
  | none => none

/-- Lowercase hexadecimal rendering (`%x`). -/
def hexStr (n : Nat) : String := String.mk (Nat.toDigits 16 n)

/-- Emission loop of `inet_ntop(AF_INET6)` over group indices `i`. -/
def inet_ntop6_go (bytes ws : List Nat) (best : Option (Nat × Nat)) :
    Nat → String → String
  | 0, acc => acc
  | fuel + 1, acc =>
    let i := 8 - (fuel + 1)
    let inRun : Bool := match best with
      | some (b, l) => decide (b ≤ i ∧ i < b + l)
      | none => false
    if inRun then
      let acc := match best with
        | some (b, _) => if i = b then acc ++ ":" else acc
        | none => acc
      inet_ntop6_go bytes ws best fuel acc
    else
      let acc := if i ≠ 0 then acc ++ ":" else acc
      let v4case : Bool := match best with
        | some (b, l) => decide (b = 0 ∧ (l = 6 ∨ (l = 7 ∧ ws.getD 7 0 ≠ 1) ∨
            (l = 5 ∧ ws.getD 5 0 = 0xffff)))
        | none => false
      if i = 6 ∧ v4case then
        acc ++ inet_ntop4 (bytes.drop 12)
      else
        inet_ntop6_go bytes ws best fuel (acc ++ hexStr (ws.getD i 0))

/-- `inet_ntop(AF_INET6)` (BIND/glibc algorithm with `::` compression and the
embedded-IPv4 special cases). -/
def inet_ntop6 (bytes : List Nat) : String :=
  let ws := words_of bytes
  let best := best_zero_run ws
  let s := inet_ntop6_go bytes ws best 8 ""
  match best with
  | some (b, l) => if b + l = 8 then s ++ ":" else s
  | none => s

/-! ### `portd_get_prefix` -/

/-- `strchr(s, '/')`: the part before the first slash and, when a slash is
present, the part after it. -/
def break_at_slash : List Char → List Char × Option (List Char)
  | [] => ([], none)
  | c :: rest =>
      if c = '/' then ([], some rest)
      else
        let (a, b) := break_at_slash rest
        (c :: a, b)

/-- Embeds `portd_get_prefix` (the C name cannot be used verbatim here): the
prefix length defaults to the family maximum, an explicit `/N` suffix goes
through `atoi` and the `unsigned char` out-parameter (truncation mod 256), a
truncated length above the maximum or an unparsable address part yields `-1`
(here: `none`). -/
def portd_getPrefix (family : Fam) (ip_address : String) :
    Option (List Nat × Nat) :=
  let maxlen := match family with
    | .af_inet => PORTD_IPV4_MAX_LEN
    | .af_inet6 => PORTD_IPV6_MAX_LEN
  let (addr_part, slash_part) := break_at_slash ip_address.toList
  let prefixlen : Nat := match slash_part with
    | none => maxlen
    | some p => uchar_of_int (c_atoi (String.mk p))
  if prefixlen > maxlen then none
  else
    match inet_pton_f family (String.mk addr_part) with
    | none => none
    | some bytes => some (bytes, prefixlen)

/-! ### Prefix masking (`masklen2ip`, `apply_mask_ipv4`, `apply_mask_ipv6`) -/

/-- `struct prefix_ipv4`: 4 address bytes in network order (C field `prefix`,
renamed `addr` here) plus a prefix length. -/
structure prefix_ipv4 where
  addr : List Nat
  prefixlen : Nat
deriving DecidableEq, Repr

/-- `struct prefix_ipv6`: 16 address bytes plus a prefix length. -/
structure prefix_ipv6 where
  addr : List Nat
  prefixlen : Nat
deriving DecidableEq, Repr

/-- `masklen2ip`: the IPv4 netmask for `masklen`, as network-order bytes.
The C function `assert`s `0 <= masklen <= 32`; an assertion failure is
modelled as `none`.  On the 64-bit branch the C code computes
`htonl(0xffffffffULL << (32 - masklen))`, whose truncation to 32 bits is
written out explicitly here. -/
def masklen2ip (masklen : Nat) : Option (List Nat) :=
  if masklen ≤ 32 then
    let m := (0xffffffff <<< (32 - masklen)) % 4294967296
    some [m >>> 24 % 256, m >>> 16 % 256, m >>> 8 % 256, m % 256]
  else none

/-- `apply_mask_ipv4`: bytewise AND of the address with the netmask
(`p->prefix.s_addr &= mask.s_addr` in network byte order). -/
def apply_mask_ipv4 (p : prefix_ipv4) : Option prefix_ipv4 :=
  (masklen2ip p.prefixlen).map fun m =>
    { p with addr := List.zipWith (fun a b => a &&& b) p.addr m }

/-- The `maskbit` table of `apply_mask_ipv6`. -/
def maskbit : List Nat := [0x00, 0x80, 0xc0, 0xe0, 0xf0, 0xf8, 0xfc, 0xfe, 0xff]

/-- The byte loop of `apply_mask_ipv6`: byte `i < index` is kept, byte
`index` is masked with `maskbit[offset]`, bytes beyond are zeroed. -/
def mask_bytes (index offset : Nat) : Nat → List Nat → List Nat
  | _, [] => []
  | i, b :: rest =>
      (if i < index then b
       else if i = index then b &&& maskbit.getD offset 0
       else 0) :: mask_bytes index offset (i + 1) rest

/-- `apply_mask_ipv6`: when `prefixlen / 8 ≥ 16` the C function leaves the
address untouched, which the byte loop reproduces on a 16-byte address. -/
def apply_mask_ipv6 (p : prefix_ipv6) : prefix_ipv6 :=
  { p with addr := mask_bytes (p.prefixlen / 8) (p.prefixlen % 8) 0 p.addr }

/-! ### Connected routes (`portd_add_connected_route`, `portd_del_connected_route`) -/

/-- An OVSDB `Nexthop` row as the code reads it: its `ports` column, by port
name. -/
structure ovsrec_nexthop where
  ports : List String
deriving DecidableEq, Repr

/-- An OVSDB `Route` row as the code reads it. `address_family` and
`sub_address_family` may be NULL; the C field `prefix` is `prefixStr` here. -/
structure ovsrec_route where
  address_family : Option String
  prefixStr : String
  sub_address_family : Option String
  rt_from : String
  nexthops : List ovsrec_nexthop
deriving DecidableEq, Repr

/-- `is_route_matched`: prefix, source `connected`, sub-family NULL or
`unicast`, and the first nexthop's first port name.  The C code dereferences
`nexthops[0]->ports[0]` blindly; the embedding reads it through `head?`. -/
def is_route_matched (row_route : ovsrec_route) (prefix_str port_name : String) :
    Bool :=
  row_route.prefixStr == prefix_str &&
  row_route.rt_from == "connected" &&
  (row_route.sub_address_family == none ||
    row_route.sub_address_family == some "unicast") &&
  ((row_route.nexthops.head?.bind fun nh => nh.ports.head?) == some port_name)

/-- The family filter of the two scan loops in `portd_del_connected_route`:
for IPv4 a NULL `address_family` passes, for IPv6 it never does. -/
def del_route_family_ok (is_v4 : Bool) (row_route : ovsrec_route) : Bool :=
  if is_v4 then
    match row_route.address_family with
    | none => true
    | some f => f == "ipv4"
  else
    match row_route.address_family with
    | none => false
    | some f => f == "ipv6"

/-- The canonical `addr/len` string both route functions compute: parse,
mask, `inet_ntop`, and append `/prefixlen` (`none` when `portd_get_prefix`
fails; for IPv4 the `masklen2ip` assertion cannot fail after a successful
parse, see the `C10` theorem). -/
def route_prefix_str (is_v4 : Bool) (address : String) : Option String :=
  if is_v4 then
    match portd_getPrefix Fam.af_inet address with
    | none => none
    | some (bytes, plen) =>
        (apply_mask_ipv4 ⟨bytes, plen⟩).map fun p =>
          inet_ntop4 p.addr ++ "/" ++ toString p.prefixlen
  else
    match portd_getPrefix Fam.af_inet6 address with
    | none => none
    | some (bytes, plen) =>
        let p := apply_mask_ipv6 ⟨bytes, plen⟩
        some (inet_ntop6 p.addr ++ "/" ++ toString p.prefixlen)

/-- OVSDB transaction operations the route writer performs, in order. -/
inductive TxnEv
  | del_nexthop (nh : Option ovsrec_nexthop)
  | del_route (r : ovsrec_route)
deriving DecidableEq, Repr

/-- The scan loop shared by both branches of `portd_del_connected_route`:
the first row passing the family filter and `is_route_matched` is removed
(its first nexthop row first), the rest of the table is untouched. -/
def del_route_scan (is_v4 : Bool) (prefix_str port_name : String) :
    List ovsrec_route → Option (ovsrec_route × List ovsrec_route)
  | [] => none
  | r :: rest =>
      if del_route_family_ok is_v4 r ∧ is_route_matched r prefix_str port_name then
        some (r, rest)
      else
        (del_route_scan is_v4 prefix_str port_name rest).map fun (m, rest2) =>
          (m, r :: rest2)

/-- Embeds `portd_del_connected_route`: returns the C return value, the
remaining route table, and the transaction operations in emission order. -/
def portd_del_connected_route (routes : List ovsrec_route)
    (address port_name : String) (is_v4 : Bool) :
    Int × List ovsrec_route × List TxnEv :=
  match route_prefix_str is_v4 address with
  | none => (-1, routes, [])
  | some prefix_str =>
      match del_route_scan is_v4 prefix_str port_name routes with
      | none => (-1, routes, [])
      | some (r, rest) =>
          (0, rest, [TxnEv.del_nexthop r.nexthops.head?, TxnEv.del_route r])

/-- A `Route` row inserted by `portd_add_connected_route`, field by field:
every column starts unset and is filled by the `ovsrec_route_set_*` calls
the function reaches. -/
structure route_ins where
  vrf : Option String
  address_family : Option String
  prefixStr : Option String
  sub_address_family : Option String
  rt_from : Option String
  distance : List Int
  selected : List Bool
  nexthop_ports : List (List String)
deriving DecidableEq, Repr

/-- `CONNECTED_ROUTE_DISTANCE` (portd.h; "Connected routes have a distance
of 0" in the source). -/
def CONNECTED_ROUTE_DISTANCE : Int := 0

/-- Embeds `portd_add_connected_route` for a port row with name `port_name`
and primary addresses `ip4`/`ip6`: returns the C return value together with
the route and nexthop rows inserted into the transaction (a row inserted
before an early `return` stays inserted). -/
def portd_add_connected_route (vrf_first : Option String) (port_name : String)
    (ip4 ip6 : Option String) (is_v4 : Bool) :
    Int × List route_ins × List (List String) :=
  match vrf_first with
  | none => (-1, [], [])
  | some v =>
      let fam := if is_v4 then "ipv4" else "ipv6"
      let row0 : route_ins :=
        { vrf := some v, address_family := some fam, prefixStr := none,
          sub_address_family := none, rt_from := none, distance := [],
          selected := [], nexthop_ports := [] }
      let addr := (if is_v4 then ip4 else ip6).getD ""
      match route_prefix_str is_v4 addr with
      | none => (-1, [row0], [])
      | some prefix_str =>
          let row : route_ins :=
            { row0 with
              prefixStr := some prefix_str,
              sub_address_family := some "unicast",
              rt_from := some "connected",
              distance := [CONNECTED_ROUTE_DISTANCE],
              selected := [true],
              nexthop_ports := [[port_name]] }
          (0, [row], [[port_name]])

/-! ### PortState and the reconfiguration engine -/

/-- Netlink address commands used through `portd_set_ipaddr`. -/
inductive Cmd
  | RTM_NEWADDR
  | RTM_DELADDR
deriving DecidableEq, Repr

/-- Operations emitted by the engine, in call order: `set_ipaddr` is a
`portd_set_ipaddr(cmd, ifname, address, family, secondary)` call,
`del_route`/`add_route` are the connected-route writer calls (`add_route`
carries the port row's primary address of that family). -/
inductive Ev
  | set_ipaddr (cmd : Cmd) (ifname address : String) (family : Fam)
      (secondary : Bool)
  | del_route (address port_name : String) (is_v4 : Bool)
  | add_route (address : Option String) (is_v4 : Bool)
deriving DecidableEq, Repr

/-- `struct port`: the in-memory PortState. The two hmaps of secondary
addresses are lists of address strings. -/
structure port where
  name : String
  ip4_address : Option String
  ip6_address : Option String
  secondary_ip4addr : List String
  secondary_ip6addr : List String
  internal_vid : Int
deriving DecidableEq, Repr

/-- `struct ovsrec_port`: the CONFIG port row columns the code reads. -/
structure ovsrec_port where
  name : String
  ip4_address : Option String
  ip6_address : Option String
  ip4_address_secondary : List String
  ip6_address_secondary : List String
  hw_config_internal_vlan_id : Int
deriving DecidableEq, Repr

/-- `portd_ip4_addr_find`: membership in the secondary IPv4 set. -/
def portd_ip4_addr_find (cfg : port) (address : String) : Bool :=
  cfg.secondary_ip4addr.contains address

/-- `portd_ip6_addr_find`: membership in the secondary IPv6 set. -/
def portd_ip6_addr_find (cfg : port) (address : String) : Bool :=
  cfg.secondary_ip6addr.contains address

/-- The loop of `shash_add_once` over a whole column: a key already added
(`seen`) is skipped. -/
def dedup_first_go (seen : List String) : List String → List String
  | [] => []
  | a :: rest =>
      if seen.contains a then dedup_first_go seen rest
      else a :: dedup_first_go (a :: seen) rest

/-- `shash_add_once` over a whole column: duplicates are dropped (warned in
the C code), the first occurrence wins. -/
def dedup_first (l : List String) : List String := dedup_first_go [] l

/-- Embeds `portd_config_secondary_ipv4_addr`: build the deduplicated
desired set, DEL and drop the current entries not in it, then ADD and insert
the desired entries not currently present. -/
def portd_config_secondary_ipv4_addr (p : port) (port_row : ovsrec_port) :
    port × List Ev :=
  let new_ip_list := dedup_first port_row.ip4_address_secondary
  let removed := p.secondary_ip4addr.filter fun a => !new_ip_list.contains a
  let kept := p.secondary_ip4addr.filter fun a => new_ip_list.contains a
  let added := new_ip_list.filter fun a => !kept.contains a
  ({ p with secondary_ip4addr := kept ++ added },
   removed.map (fun a => Ev.set_ipaddr Cmd.RTM_DELADDR p.name a Fam.af_inet true)
     ++ added.map fun a => Ev.set_ipaddr Cmd.RTM_NEWADDR p.name a Fam.af_inet true)

/-- Embeds `portd_config_secondary_ipv6_addr` (IPv6 twin of the above). -/
def portd_config_secondary_ipv6_addr (p : port) (port_row : ovsrec_port) :
    port × List Ev :=
  let new_ip6_list := dedup_first port_row.ip6_address_secondary
  let removed := p.secondary_ip6addr.filter fun a => !new_ip6_list.contains a
  let kept := p.secondary_ip6addr.filter fun a => new_ip6_list.contains a
  let added := new_ip6_list.filter fun a => !kept.contains a
  ({ p with secondary_ip6addr := kept ++ added },
   removed.map (fun a => Ev.set_ipaddr Cmd.RTM_DELADDR p.name a Fam.af_inet6 true)
     ++ added.map fun a => Ev.set_ipaddr Cmd.RTM_NEWADDR p.name a Fam.af_inet6 true)

/-- Embeds `portd_reconfig_ipaddr`: primary v4 handling, then primary v6,
then the secondary columns when the CONFIG reports them modified. -/
def portd_reconfig_ipaddr (p : port) (port_row : ovsrec_port)
    (ip4_secondary_modified ip6_secondary_modified : Bool) : port × List Ev :=
  let (p1, ev1) :=
    match port_row.ip4_address with
    | some c =>
        match p.ip4_address with
        | some s =>
            if s ≠ c then
              ({ p with ip4_address := some c },
               [Ev.set_ipaddr Cmd.RTM_DELADDR p.name s Fam.af_inet false,
                Ev.del_route s p.name true,
                Ev.set_ipaddr Cmd.RTM_NEWADDR p.name c Fam.af_inet false,
                Ev.add_route (some c) true])
            else (p, [])
        | none =>
            ({ p with ip4_address := some c },
             [Ev.set_ipaddr Cmd.RTM_NEWADDR p.name c Fam.af_inet false,
              Ev.add_route (some c) true])
    | none =>
        match p.ip4_address with
        | some s =>
            ({ p with ip4_address := none },
             [Ev.set_ipaddr Cmd.RTM_DELADDR p.name s Fam.af_inet false,
              Ev.del_route s p.name true])
        | none => (p, [])
  let (p2, ev2) :=
    match port_row.ip6_address with
    | some c =>
        match p1.ip6_address with
        | some s =>
            if s ≠ c then
              ({ p1 with ip6_address := some c },
               [Ev.set_ipaddr Cmd.RTM_DELADDR p1.name s Fam.af_inet6 false,
                Ev.del_route s p1.name false,
                Ev.set_ipaddr Cmd.RTM_NEWADDR p1.name c Fam.af_inet6 false,
                Ev.add_route (some c) false])
            else (p1, [])
        | none =>
            ({ p1 with ip6_address := some c },
             [Ev.set_ipaddr Cmd.RTM_NEWADDR p1.name c Fam.af_inet6 false,
              Ev.add_route (some c) false])
    | none =>
        match p1.ip6_address with
        | some s =>
            ({ p1 with ip6_address := none },
             [Ev.set_ipaddr Cmd.RTM_DELADDR p1.name s Fam.af_inet6 false,
              Ev.del_route s p1.name false])
        | none => (p1, [])
  let (p3, ev3) :=
    if ip4_secondary_modified then portd_config_secondary_ipv4_addr p2 port_row
    else (p2, [])
  let (p4, ev4) :=
    if ip6_secondary_modified then portd_config_secondary_ipv6_addr p3 port_row
    else (p3, [])
  (p4, ev1 ++ ev2 ++ ev3 ++ ev4)

/-- Modelled from the spec (§4.5, claim C2): the four-case primary-address
analysis for one family, producing the stored address and the expected
event sequence.  Used only to compare `portd_reconfig_ipaddr` against the
specification's wording. -/
def spec_primary_step (is_v4 : Bool) (fam : Fam) (name : String)
    (state config : Option String) : Option String × List Ev :=
  match config, state with
  | some c, some s =>
      if s ≠ c then
        (some c,
         [Ev.set_ipaddr Cmd.RTM_DELADDR name s fam false,
          Ev.del_route s name is_v4,
          Ev.set_ipaddr Cmd.RTM_NEWADDR name c fam false,
          Ev.add_route (some c) is_v4])
      else (some s, [])
  | some c, none =>
      (some c,
       [Ev.set_ipaddr Cmd.RTM_NEWADDR name c fam false,
        Ev.add_route (some c) is_v4])
  | none, some s =>
      (none,
       [Ev.set_ipaddr Cmd.RTM_DELADDR name s fam false,
        Ev.del_route s name is_v4])
  | none, none => (none, [])

/-! ### Startup reconciliation (`portd_ipaddr_config_on_init`) -/

/-- `struct kernel_port`: one dumped kernel interface with its address
strings (as formatted by the dump parser, `addr/len`). -/
structure kernel_port where
  name : String
  ip4addr : List String
  ip6addr : List String
deriving DecidableEq, Repr

/-- `portd_find_ip_addr_kernel`. -/
def portd_find_ip_addr_kernel (kp : kernel_port) (address : String)
    (ipv6 : Bool) : Bool :=
  if ipv6 then kp.ip6addr.contains address else kp.ip4addr.contains address

/-- `portd_find_ip_addr_db`: the primary of the family, then the secondary
set. -/
def portd_find_ip_addr_db (p : port) (address : String) (ipv6 : Bool) : Bool :=
  if ipv6 then
    p.ip6_address == some address || p.secondary_ip6addr.contains address
  else
    p.ip4_address == some address || p.secondary_ip4addr.contains address

/-- An OVSDB `VRF` row as read at startup: its ports column. -/
structure ovsrec_vrf where
  ports : List ovsrec_port
deriving DecidableEq, Repr

/-- The port record `portd_populate_db_ip_addr` builds from one CONFIG row
(secondary columns are copied verbatim, duplicates included). -/
def db_port_of_row (row : ovsrec_port) : port :=
  { name := row.name,
    ip4_address := row.ip4_address,
    ip6_address := row.ip6_address,
    secondary_ip4addr := row.ip4_address_secondary,
    secondary_ip6addr := row.ip6_address_secondary,
    internal_vid :=
      if row.hw_config_internal_vlan_id ≠ 0 then row.hw_config_internal_vlan_id
      else -1 }

/-- `shash_add_once` keyed by port name: later rows with an already-present
name are dropped. -/
def add_once_by_name : List port → List port → List port
  | acc, [] => acc.reverse
  | acc, p :: rest =>
      if acc.any fun q => q.name == p.name then add_once_by_name acc rest
      else add_once_by_name (p :: acc) rest

/-- Embeds `portd_populate_db_ip_addr`: one record per port of every VRF,
keyed by name, first VRF wins on duplicates. -/
def portd_populate_db_ip_addr (all_vrfs : List ovsrec_vrf) : List port :=
  add_once_by_name [] ((all_vrfs.flatMap fun v => v.ports).map db_port_of_row)

/-- `shash_find_data` on the DB port list. -/
def shash_find_port (l : List port) (name : String) : Option port :=
  l.find? fun p => p.name == name

/-- The operations `portd_ipaddr_config_on_init` emits for one dumped
kernel interface: all-family deletes when the port left the CONFIG,
otherwise deletes of kernel addresses absent from the DB followed by adds
of DB addresses (primary non-secondary, secondaries secondary) absent from
the kernel. -/
def portd_init_port_ops (db_port_list : List port) (kp : kernel_port) :
    List Ev :=
  match shash_find_port db_port_list kp.name with
  | none =>
      kp.ip4addr.map
        (fun a => Ev.set_ipaddr Cmd.RTM_DELADDR kp.name a Fam.af_inet false)
      ++ kp.ip6addr.map
        fun a => Ev.set_ipaddr Cmd.RTM_DELADDR kp.name a Fam.af_inet6 false
  | some db_port =>
      (kp.ip4addr.filter fun a => !portd_find_ip_addr_db db_port a false).map
        (fun a => Ev.set_ipaddr Cmd.RTM_DELADDR db_port.name a Fam.af_inet false)
      ++ (kp.ip6addr.filter fun a => !portd_find_ip_addr_db db_port a true).map
        (fun a => Ev.set_ipaddr Cmd.RTM_DELADDR db_port.name a Fam.af_inet6 false)
      ++ (match db_port.ip4_address with
          | some a =>
              if !portd_find_ip_addr_kernel kp a false then
                [Ev.set_ipaddr Cmd.RTM_NEWADDR db_port.name a Fam.af_inet false]
              else []
          | none => [])
      ++ (match db_port.ip6_address with
          | some a =>
              if !portd_find_ip_addr_kernel kp a true then
                [Ev.set_ipaddr Cmd.RTM_NEWADDR db_port.name a Fam.af_inet6 false]
              else []
          | none => [])
      ++ (db_port.secondary_ip4addr.filter
            fun a => !portd_find_ip_addr_kernel kp a false).map
          (fun a => Ev.set_ipaddr Cmd.RTM_NEWADDR db_port.name a Fam.af_inet true)
      ++ (db_port.secondary_ip6addr.filter
            fun a => !portd_find_ip_addr_kernel kp a true).map
          fun a => Ev.set_ipaddr Cmd.RTM_NEWADDR db_port.name a Fam.af_inet6 true

/-- Embeds `portd_ipaddr_config_on_init`'s kernel-facing behaviour: the DB
list is built from the VRFs, the dumped kernel ports are processed in
order.  (The netlink dump itself is I/O; its parsed result is the
`kernel_port_list` argument.) -/
def portd_ipaddr_config_on_init (all_vrfs : List ovsrec_vrf)
    (kernel_port_list : List kernel_port) : List Ev :=
  let db_port_list := portd_populate_db_ip_addr all_vrfs
  kernel_port_list.flatMap (portd_init_port_ops db_port_list)

/-- The kernel's address store for one interface and family, driven by the
emitted operations: `RTM_DELADDR` removes the address, `RTM_NEWADDR`
installs it.  Operations for other interfaces or families do not touch it. -/
def apply_addr_ops (ifname : String) (fam : Fam) (init : List String)
    (ops : List Ev) : List String :=
  ops.foldl
    (fun cur e =>
      match e with
      | Ev.set_ipaddr cmd n a f _ =>
          if n = ifname ∧ f = fam then
            match cmd with
            | Cmd.RTM_DELADDR => cur.filter fun x => x ≠ a
            | Cmd.RTM_NEWADDR => a :: cur
          else cur
      | _ => cur)
    init

/-- The CONFIG addresses of one family on a DB port record: the primary, if
set, and the secondary set. -/
def db_addrs (fam : Fam) (p : port) : List String :=
  match fam with
  | Fam.af_inet => p.ip4_address.toList ++ p.secondary_ip4addr
  | Fam.af_inet6 => p.ip6_address.toList ++ p.secondary_ip6addr

/-- The dumped kernel addresses of one family on one interface. -/
def kernel_addrs (fam : Fam) (kp : kernel_port) : List String :=
  match fam with
  | Fam.af_inet => kp.ip4addr
  | Fam.af_inet6 => kp.ip6addr

/-! ### `portd_interface_up_down` -/

/-- `IFF_UP`. -/
def IFF_UP : Nat := 1

/-- Outcome of `portd_interface_up_down`: an early `return` before any
netlink send (for a NULL/empty argument, an unknown interface, or a send
failure — sends are assumed to succeed here), or the link message that goes
out, with its `ifi_change` and `ifi_flags` words. -/
inductive UpDownRes
  | bad_argument
  | no_such_interface
  | sent (ifi_index ifi_change ifi_flags : Nat)
deriving DecidableEq, Repr

/-- `PORTD_EMPTY_STRING` (portd.h). -/
def PORTD_EMPTY_STRING : String := ""

/-- Embeds `portd_interface_up_down`; `if_nametoindex` is passed in as the
kernel's name-to-index map (0 = unknown).  Note that an unrecognised
non-empty status string falls through both `strcmp`s and the message is
still sent, with `ifi_change = ifi_flags = 0`. -/
def portd_interface_up_down (if_nametoindex : String → Nat)
    (interface_name status : Option String) : UpDownRes :=
  match status with
  | none => UpDownRes.bad_argument
  | some st =>
      if st = PORTD_EMPTY_STRING then UpDownRes.bad_argument
      else
        match interface_name with
        | none => UpDownRes.bad_argument
        | some ifn =>
            if ifn = PORTD_EMPTY_STRING then UpDownRes.bad_argument
            else
              let idx := if_nametoindex ifn
              if idx = 0 then UpDownRes.no_such_interface
              else if st = "up" then UpDownRes.sent idx IFF_UP IFF_UP
              else if st = "down" then UpDownRes.sent idx IFF_UP 0
              else UpDownRes.sent idx 0 0

/-! ### The PortState invariant (spec §3, claim C6) -/

/-- Modelled from the spec's data-model invariant: within one family the
primary address is never also in the secondary set, and the secondary sets
contain no duplicates. -/
def port_inv (p : port) : Prop :=
  (∀ a, p.ip4_address = some a → a ∉ p.secondary_ip4addr) ∧
  (∀ a, p.ip6_address = some a → a ∉ p.secondary_ip6addr) ∧
  p.secondary_ip4addr.Nodup ∧ p.secondary_ip6addr.Nodup

instance (p : port) : Decidable (port_inv p) := by
  unfold port_inv
  have d : ∀ (o : Option String) (l : List String),
      Decidable (∀ a, o = some a → a ∉ l) := by
    intro o l
    cases o with
    | none => exact isTrue (by simp)
    | some a =>
        exact decidable_of_iff (a ∉ l) (by simp)
  exact @instDecidableAnd _ _ (d _ _)
    (@instDecidableAnd _ _ (d _ _) inferInstance)

/-! ## Helper lemmas -/

/-- Masking twice with the same word is masking once. -/
lemma land_land_self (a b : Nat) : (a &&& b) &&& b = a &&& b := by
  apply Nat.eq_of_testBit_eq
  intro i
  simp [Nat.testBit_land, Bool.and_assoc]

/-- Masking a byte list twice with the same mask bytes is masking once. -/
lemma zipWith_land_idem (a : List Nat) : ∀ m : List Nat,
    List.zipWith (fun x y => x &&& y)
        (List.zipWith (fun x y => x &&& y) a m) m =
      List.zipWith (fun x y => x &&& y) a m := by
  induction a with
  | nil => intro m; simp
  | cons x xs ih =>
      intro m
      cases m with
      | nil => simp
      | cons y ys => simp [land_land_self, ih]

/-- The byte loop of `apply_mask_ipv6` is idempotent, elementwise. -/
lemma mask_bytes_idem (index offset : Nat) (l : List Nat) : ∀ i : Nat,
    mask_bytes index offset i (mask_bytes index offset i l) =
      mask_bytes index offset i l := by
  induction l with
  | nil => intro i; simp [mask_bytes]
  | cons b rest ih =>
      intro i
      simp only [mask_bytes]
      refine congrArg₂ _ ?_ (ih (i + 1))
      by_cases h1 : i < index
      · simp [h1]
      · by_cases h2 : i = index
        · simp [h1, h2, land_land_self]
        · simp [h1, h2]

/-- Membership in the `shash_add_once` loop's output: present in the input
and not yet seen. -/
lemma mem_dedup_first_go (x : String) : ∀ (l seen : List String),
    x ∈ dedup_first_go seen l ↔ x ∈ l ∧ x ∉ seen := by
  intro l
  induction l with
  | nil => intro seen; simp [dedup_first_go]
  | cons a rest ih =>
      intro seen
      rw [dedup_first_go]
      split_ifs with hs
      · rw [ih]
        simp only [List.mem_cons]
        constructor
        · rintro ⟨h1, h2⟩; exact ⟨Or.inr h1, h2⟩
        · rintro ⟨h1 | h1, h2⟩
          · subst h1; exact absurd (by simpa using hs) h2
          · exact ⟨h1, h2⟩
      · simp only [List.mem_cons, ih, List.mem_cons] at *
        constructor
        · rintro (rfl | ⟨h1, h2⟩)
          · exact ⟨Or.inl rfl, by simpa using hs⟩
          · exact ⟨Or.inr h1, fun hx => h2 (Or.inr hx)⟩
        · rintro ⟨rfl | h1, h2⟩
          · exact Or.inl rfl
          · by_cases hxa : x = a
            · exact Or.inl hxa
            · exact Or.inr ⟨h1, fun hx => (by
                rcases hx with hx | hx
                exacts [hxa hx, h2 hx])⟩

/-- Membership is preserved by `dedup_first`. -/
lemma mem_dedup_first (x : String) (l : List String) :
    x ∈ dedup_first l ↔ x ∈ l := by
  simp [dedup_first, mem_dedup_first_go]

/-- The `shash_add_once` loop produces a duplicate-free list. -/
lemma nodup_dedup_first_go : ∀ (l seen : List String),
    (dedup_first_go seen l).Nodup := by
  intro l
  induction l with
  | nil => intro seen; simp [dedup_first_go]
  | cons a rest ih =>
      intro seen
      rw [dedup_first_go]
      split_ifs with hs
      · exact ih seen
      · refine List.nodup_cons.mpr ⟨?_, ih (a :: seen)⟩
        intro hmem
        exact ((mem_dedup_first_go a rest (a :: seen)).mp hmem).2 (by simp)

/-- `dedup_first` produces a duplicate-free list. -/
lemma nodup_dedup_first (l : List String) : (dedup_first l).Nodup :=
  nodup_dedup_first_go l []

/-- Membership in the reconciled secondary set (`kept ++ added`) is
membership in the desired column. -/
lemma kept_added_mem (cur des : List String) (x : String) :
    x ∈ (cur.filter fun a => (dedup_first des).contains a) ++
        ((dedup_first des).filter fun a =>
          !(cur.filter fun b => (dedup_first des).contains b).contains a) ↔
      x ∈ des := by
  simp only [List.mem_append, List.mem_filter, List.contains, List.elem_eq_mem,
    decide_eq_true_eq, Bool.not_eq_true', decide_eq_false_iff_not,
    mem_dedup_first]
  tauto

/-- The reconciled secondary set is duplicate-free when the current one is. -/
lemma kept_added_nodup (cur des : List String) (h : cur.Nodup) :
    ((cur.filter fun a => (dedup_first des).contains a) ++
      ((dedup_first des).filter fun a =>
        !(cur.filter fun b => (dedup_first des).contains b).contains a)).Nodup := by
  refine List.Nodup.append (h.filter _) ((nodup_dedup_first des).filter _) ?_
  intro a ha hb
  rcases List.mem_filter.mp hb with ⟨-, hnb⟩
  simp only [List.contains, List.elem_eq_mem, Bool.not_eq_true',
    decide_eq_false_iff_not] at hnb
  refine hnb (List.mem_filter.mpr ⟨(List.mem_filter.mp ha).1, ?_⟩)
  simpa using (List.mem_filter.mp ha).2

/-! ## Claims -/

/-- C7: `apply_mask` is idempotent for every valid `(family, bytes,
prefixlen)` with the prefix length within the family maximum: the
shift-based IPv4 mask and the table-based IPv6 mask both leave an already
masked address unchanged. -/
theorem C7_apply_mask_idempotent (p4 : prefix_ipv4) (p6 : prefix_ipv6)
    (h4 : p4.prefixlen ≤ 32) (h6 : p6.prefixlen ≤ 128) :
    (apply_mask_ipv4 p4).bind apply_mask_ipv4 = apply_mask_ipv4 p4 ∧
    apply_mask_ipv6 (apply_mask_ipv6 p6) = apply_mask_ipv6 p6 := by
  constructor
  · obtain ⟨m, hm⟩ : ∃ m, masklen2ip p4.prefixlen = some m := by
      simp [masklen2ip, h4]
    simp [apply_mask_ipv4, hm, zipWith_land_idem]
  · unfold apply_mask_ipv6
    simp only []
    congr 1
    exact mask_bytes_idem _ _ _ 0

/-- C7 witness at a concrete prefix pair. -/
theorem C7_witness :
    (apply_mask_ipv4 ⟨[10, 1, 2, 3], 24⟩).bind apply_mask_ipv4 =
        apply_mask_ipv4 ⟨[10, 1, 2, 3], 24⟩ ∧
    apply_mask_ipv6 (apply_mask_ipv6 ⟨[32, 1, 13, 184, 0, 0, 0, 0, 0, 0, 0, 0,
        0, 0, 0, 5], 64⟩) =
      apply_mask_ipv6 ⟨[32, 1, 13, 184, 0, 0, 0, 0, 0, 0, 0, 0, 0, 0, 0, 5], 64⟩ :=
  C7_apply_mask_idempotent _ _ (by decide) (by decide)

/-- C4: the claim says every IPv6 input `addr/N` with `N > 128` fails, but
the code stores `atoi`'s result in an `unsigned char` before the bound
check, so `"::1/300"` is truncated to prefix length 44 and accepted. -/
theorem C4_truncation_accepts_overlong_prefixlen :
    portd_getPrefix Fam.af_inet6 "::1/300" =
      some ([0, 0, 0, 0, 0, 0, 0, 0, 0, 0, 0, 0, 0, 0, 0, 1], 44) ∧
    (300 : Nat) > 128 := by
  constructor
  · rfl
  · decide

/-- C10: every IPv4 address string accepted by the prefix parser yields a
prefix length of at most 32 (the value checked is the value passed on), so
the `masklen2ip` assertion cannot fire and `apply_mask_ipv4` succeeds on
the connected-route paths. -/
theorem C10_masklen2ip_assert_safe (s : String) (bytes : List Nat) (plen : Nat)
    (h : portd_getPrefix Fam.af_inet s = some (bytes, plen)) :
    plen ≤ 32 ∧ (masklen2ip plen).isSome ∧
      (apply_mask_ipv4 ⟨bytes, plen⟩).isSome := by
  have hple : plen ≤ 32 := by
    unfold portd_getPrefix at h
    simp only [PORTD_IPV4_MAX_LEN] at h
    split at h
    · exact absurd h (by simp)
    · split at h
      · exact absurd h (by simp)
      · rename_i hgt _ _ _
        simp only [Option.some.injEq, Prod.mk.injEq] at h
        omega
  refine ⟨hple, ?_, ?_⟩
  · simp [masklen2ip, hple]
  · simp [apply_mask_ipv4, masklen2ip, hple]

/-- C10 witness at a concrete accepted address. -/
theorem C10_witness :
    (24 : Nat) ≤ 32 ∧ (masklen2ip 24).isSome ∧
      (apply_mask_ipv4 ⟨[10, 0, 0, 1], 24⟩).isSome :=
  C10_masklen2ip_assert_safe "10.0.0.1/24" [10, 0, 0, 1] 24 (by rfl)

/-- C8 counterexample: the claim says every status other than `"up"` and
`"down"` is rejected without a kernel message, but the status `"foo"` on a
resolvable interface falls through both comparisons and a link message is
sent (with empty change mask and flags). -/
theorem C8_counterexample :
    portd_interface_up_down (fun _ => 7) (some "eth0") (some "foo") =
      UpDownRes.sent 7 0 0 ∧
    "foo" ≠ "up" ∧ "foo" ≠ "down" := by decide

/-- C8 amended: only a NULL or empty status (or interface name) is rejected
before any kernel message; any other status that is neither `"up"` nor
`"down"` still sends a link message, with `ifi_change = ifi_flags = 0`. -/
theorem C8_up_down_rejects_only_empty (f : String → Nat) (ifn st : String)
    (h1 : st ≠ "up") (h2 : st ≠ "down") (h3 : st ≠ "") (h4 : ifn ≠ "")
    (h5 : f ifn ≠ 0) :
    portd_interface_up_down f (some ifn) (some st) =
        UpDownRes.sent (f ifn) 0 0 ∧
    portd_interface_up_down f (some ifn) none = UpDownRes.bad_argument ∧
    portd_interface_up_down f (some ifn) (some "") = UpDownRes.bad_argument ∧
    portd_interface_up_down f none (some st) = UpDownRes.bad_argument := by
  unfold portd_interface_up_down PORTD_EMPTY_STRING
  simp [h1, h2, h3, h4, h5]

/-- C8 amended witness at concrete arguments. -/
theorem C8_witness :
    portd_interface_up_down (fun _ => 7) (some "eth0") (some "foo") =
        UpDownRes.sent ((fun (_ : String) => 7) "eth0") 0 0 ∧
    portd_interface_up_down (fun _ => 7) (some "eth0") none =
        UpDownRes.bad_argument ∧
    portd_interface_up_down (fun _ => 7) (some "eth0") (some "") =
        UpDownRes.bad_argument ∧
    portd_interface_up_down (fun _ => 7) none (some "foo") =
        UpDownRes.bad_argument :=
  C8_up_down_rejects_only_empty (fun _ => 7) "eth0" "foo" (by decide)
    (by decide) (by decide) (by decide) (by decide)

/-- C9: when a first VRF exists but the port's primary address does not
parse, `portd_add_connected_route` returns the error only after a route row
was already inserted with its VRF reference and address family set and no
prefix, source, distance, selected flag, or nexthop. -/
theorem C9_add_route_inserts_before_error (v port_name a : String)
    (ip6 : Option String)
    (h : portd_getPrefix Fam.af_inet a = none) :
    portd_add_connected_route (some v) port_name (some a) ip6 true =
      (-1,
       [{ vrf := some v, address_family := some "ipv4", prefixStr := none,
          sub_address_family := none, rt_from := none, distance := [],
          selected := [], nexthop_ports := [] }],
       []) := by
  unfold portd_add_connected_route route_prefix_str
  simp [h]

/-- C9 witness at a concrete unparsable address. -/
theorem C9_witness :
    portd_add_connected_route (some "vrf_default") "eth0" (some "badaddr")
        none true =
      (-1,
       [{ vrf := some "vrf_default", address_family := some "ipv4",
          prefixStr := none, sub_address_family := none, rt_from := none,
          distance := [], selected := [], nexthop_ports := [] }],
       []) :=
  C9_add_route_inserts_before_error "vrf_default" "eth0" "badaddr" none
    (by rfl)

/-- Decomposition of `portd_reconfig_ipaddr` into the two spec-side primary
steps followed by the secondary-column handling. -/
lemma reconfig_decomp (p : port) (row : ovsrec_port) (s4 s6 : Bool) :
    portd_reconfig_ipaddr p row s4 s6 =
      (let r4 := spec_primary_step true Fam.af_inet p.name
                   p.ip4_address row.ip4_address
       let r6 := spec_primary_step false Fam.af_inet6 p.name
                   p.ip6_address row.ip6_address
       let base := { p with ip4_address := r4.1, ip6_address := r6.1 }
       let q4 := if s4 then portd_config_secondary_ipv4_addr base row
                 else (base, [])
       let q6 := if s6 then portd_config_secondary_ipv6_addr q4.1 row
                 else (q4.1, [])
       (q6.1, r4.2 ++ r6.2 ++ q4.2 ++ q6.2)) := by
  rcases p with ⟨n, i4, i6, sec4, sec6, v⟩
  rcases row with ⟨rn, c4o, c6o, rs4, rs6, hw⟩
  cases c4o <;> cases c6o <;> cases i4 <;> cases i6 <;>
    simp only [portd_reconfig_ipaddr, spec_primary_step] <;>
    first
      | rfl
      | (split_ifs <;> first | rfl | simp_all)

/-- C2: `portd_reconfig_ipaddr` follows exactly the four-case primary
analysis of the spec for IPv4 — delete old kernel address, delete old
connected route, replace the stored address, add new kernel address, insert
new connected route when both sides have a differing primary; store, add,
insert when only the CONFIG has one; delete, delete, clear when only the
state has one; nothing when neither has one — and symmetrically for IPv6,
with the v4 events first, then the v6 events, then the secondary-column
handling. -/
theorem C2_reconfig_primary_four_cases (p : port) (row : ovsrec_port)
    (s4 s6 : Bool) :
    portd_reconfig_ipaddr p row s4 s6 =
      (let r4 := spec_primary_step true Fam.af_inet p.name
                   p.ip4_address row.ip4_address
       let r6 := spec_primary_step false Fam.af_inet6 p.name
                   p.ip6_address row.ip6_address
       let base := { p with ip4_address := r4.1, ip6_address := r6.1 }
       let q4 := if s4 then portd_config_secondary_ipv4_addr base row
                 else (base, [])
       let q6 := if s6 then portd_config_secondary_ipv6_addr q4.1 row
                 else (q4.1, [])
       (q6.1, r4.2 ++ r6.2 ++ q4.2 ++ q6.2)) :=
  reconfig_decomp p row s4 s6

/-- C5: in each secondary-address reconciliation, every kernel DEL (for an
address in the current set but not in the desired column) is emitted before
every kernel ADD (for an address in the desired column but not in the
current set), afterwards the stored secondary set equals the desired column
as a set (duplicates first-wins), and no address is both removed and added
in the same call.  Stated for the IPv4 function and then for the IPv6 one. -/
theorem C5_secondary_dels_before_adds (p : port) (row : ovsrec_port) :
    ((∃ dels adds,
        (portd_config_secondary_ipv4_addr p row).2 = dels ++ adds ∧
        (∀ e ∈ dels, ∃ a,
            e = Ev.set_ipaddr Cmd.RTM_DELADDR p.name a Fam.af_inet true ∧
            a ∈ p.secondary_ip4addr ∧ a ∉ row.ip4_address_secondary) ∧
        (∀ e ∈ adds, ∃ a,
            e = Ev.set_ipaddr Cmd.RTM_NEWADDR p.name a Fam.af_inet true ∧
            a ∈ row.ip4_address_secondary ∧ a ∉ p.secondary_ip4addr)) ∧
     (∀ a, Ev.set_ipaddr Cmd.RTM_DELADDR p.name a Fam.af_inet true ∈
              (portd_config_secondary_ipv4_addr p row).2 →
           Ev.set_ipaddr Cmd.RTM_NEWADDR p.name a Fam.af_inet true ∉
              (portd_config_secondary_ipv4_addr p row).2) ∧
     (∀ x, x ∈ (portd_config_secondary_ipv4_addr p row).1.secondary_ip4addr ↔
           x ∈ row.ip4_address_secondary)) ∧
    ((∃ dels adds,
        (portd_config_secondary_ipv6_addr p row).2 = dels ++ adds ∧
        (∀ e ∈ dels, ∃ a,
            e = Ev.set_ipaddr Cmd.RTM_DELADDR p.name a Fam.af_inet6 true ∧
            a ∈ p.secondary_ip6addr ∧ a ∉ row.ip6_address_secondary) ∧
        (∀ e ∈ adds, ∃ a,
            e = Ev.set_ipaddr Cmd.RTM_NEWADDR p.name a Fam.af_inet6 true ∧
            a ∈ row.ip6_address_secondary ∧ a ∉ p.secondary_ip6addr)) ∧
     (∀ a, Ev.set_ipaddr Cmd.RTM_DELADDR p.name a Fam.af_inet6 true ∈
              (portd_config_secondary_ipv6_addr p row).2 →
           Ev.set_ipaddr Cmd.RTM_NEWADDR p.name a Fam.af_inet6 true ∉
              (portd_config_secondary_ipv6_addr p row).2) ∧
     (∀ x, x ∈ (portd_config_secondary_ipv6_addr p row).1.secondary_ip6addr ↔
           x ∈ row.ip6_address_secondary)) := by
  constructor
  · refine ⟨⟨_, _, rfl, ?_, ?_⟩, ?_, ?_⟩
    · intro e he
      rcases List.mem_map.mp he with ⟨a, ha, rfl⟩
      rcases List.mem_filter.mp ha with ⟨hc, hn⟩
      refine ⟨a, rfl, hc, ?_⟩
      simpa [mem_dedup_first] using hn
    · intro e he
      rcases List.mem_map.mp he with ⟨a, ha, rfl⟩
      rcases List.mem_filter.mp ha with ⟨hd, hnk⟩
      refine ⟨a, rfl, (mem_dedup_first a _).mp hd, ?_⟩
      intro hcur
      have : a ∈ p.secondary_ip4addr.filter
          fun b => (dedup_first row.ip4_address_secondary).contains b := by
        refine List.mem_filter.mpr ⟨hcur, ?_⟩
        simpa [mem_dedup_first] using hd
      simp only [List.contains, List.elem_eq_mem, Bool.not_eq_true',
        decide_eq_false_iff_not] at hnk
      exact hnk (by simpa using this)
    · intro a hdel hadd
      simp only [portd_config_secondary_ipv4_addr, List.mem_append,
        List.mem_map, Ev.set_ipaddr.injEq] at hdel hadd
      rcases hdel with ⟨b, hb, hinj⟩ | ⟨b, hb, hinj⟩
      · rcases hadd with ⟨c, hc, hinj2⟩ | ⟨c, hc, hinj2⟩
        · simp at hinj2
        · obtain ⟨-, -, rfl, -⟩ := hinj
          obtain ⟨-, -, rfl, -⟩ := hinj2
          rcases List.mem_filter.mp hb with ⟨-, hn⟩
          rcases List.mem_filter.mp hc with ⟨hd, -⟩
          simp only [List.contains, List.elem_eq_mem, Bool.not_eq_true',
            decide_eq_false_iff_not] at hn
          exact hn ((by simpa [mem_dedup_first] using hd))
      · simp at hinj
    · intro x
      simpa only [portd_config_secondary_ipv4_addr] using
        kept_added_mem p.secondary_ip4addr row.ip4_address_secondary x
  · refine ⟨⟨_, _, rfl, ?_, ?_⟩, ?_, ?_⟩
    · intro e he
      rcases List.mem_map.mp he with ⟨a, ha, rfl⟩
      rcases List.mem_filter.mp ha with ⟨hc, hn⟩
      refine ⟨a, rfl, hc, ?_⟩
      simpa [mem_dedup_first] using hn
    · intro e he
      rcases List.mem_map.mp he with ⟨a, ha, rfl⟩
      rcases List.mem_filter.mp ha with ⟨hd, hnk⟩
      refine ⟨a, rfl, (mem_dedup_first a _).mp hd, ?_⟩
      intro hcur
      have : a ∈ p.secondary_ip6addr.filter
          fun b => (dedup_first row.ip6_address_secondary).contains b := by
        refine List.mem_filter.mpr ⟨hcur, ?_⟩
        simpa [mem_dedup_first] using hd
      simp only [List.contains, List.elem_eq_mem, Bool.not_eq_true',
        decide_eq_false_iff_not] at hnk
      exact hnk (by simpa using this)
    · intro a hdel hadd
      simp only [portd_config_secondary_ipv6_addr, List.mem_append,
        List.mem_map, Ev.set_ipaddr.injEq] at hdel hadd
      rcases hdel with ⟨b, hb, hinj⟩ | ⟨b, hb, hinj⟩
      · rcases hadd with ⟨c, hc, hinj2⟩ | ⟨c, hc, hinj2⟩
        · simp at hinj2
        · obtain ⟨-, -, rfl, -⟩ := hinj
          obtain ⟨-, -, rfl, -⟩ := hinj2
          rcases List.mem_filter.mp hb with ⟨-, hn⟩
          rcases List.mem_filter.mp hc with ⟨hd, -⟩
          simp only [List.contains, List.elem_eq_mem, Bool.not_eq_true',
            decide_eq_false_iff_not] at hn
          exact hn ((by simpa [mem_dedup_first] using hd))
      · simp at hinj
    · intro x
      simpa only [portd_config_secondary_ipv6_addr] using
        kept_added_mem p.secondary_ip6addr row.ip6_address_secondary x

/-- The stored primary of a family after a spec primary step is exactly the
CONFIG value. -/
lemma spec_primary_step_fst (is_v4 : Bool) (fam : Fam) (n : String)
    (st cfg : Option String) :
    (spec_primary_step is_v4 fam n st cfg).1 = cfg := by
  cases cfg <;> cases st <;> simp only [spec_primary_step] <;>
    split_ifs <;> simp_all

/-- C6 counterexample: the claim says every PortState mutation preserves
the primary-not-in-secondary invariant, but a reconfiguration from a CONFIG
row that lists the same address as primary and secondary produces a state
violating it. -/
theorem C6_counterexample :
    port_inv ⟨"eth0", none, none, [], [], -1⟩ ∧
    ¬ port_inv (portd_reconfig_ipaddr ⟨"eth0", none, none, [], [], -1⟩
        ⟨"eth0", some "10.0.0.1/24", none, ["10.0.0.1/24"], [], 0⟩
        true false).1 := by
  constructor
  · decide
  · decide

/-- C6 amended: `portd_reconfig_ipaddr` preserves the invariant provided
the CONFIG primary of each family is not listed in that family's effective
secondary set (the CONFIG secondary column when that column is modified,
the stored set otherwise); the duplicate-freeness half needs no such
proviso. -/
theorem C6_invariant_preserved (p : port) (row : ovsrec_port) (s4 s6 : Bool)
    (hp : port_inv p)
    (h4 : ∀ c, row.ip4_address = some c →
        c ∉ (if s4 then row.ip4_address_secondary else p.secondary_ip4addr))
    (h6 : ∀ c, row.ip6_address = some c →
        c ∉ (if s6 then row.ip6_address_secondary else p.secondary_ip6addr)) :
    port_inv (portd_reconfig_ipaddr p row s4 s6).1 := by
  rw [reconfig_decomp]
  obtain ⟨hp4, hp6, hn4, hn6⟩ := hp
  simp only [spec_primary_step_fst]
  cases s4 <;> cases s6 <;>
    simp only [Bool.false_eq_true, if_true, if_false, ite_true, ite_false,
      portd_config_secondary_ipv4_addr, portd_config_secondary_ipv6_addr] <;>
    refine ⟨?_, ?_, ?_, ?_⟩ <;>
    simp only [] <;>
    first
      | (intro c hc hmem
         first
           | exact h4 c hc ((kept_added_mem _ _ c).mp hmem)
           | exact h6 c hc ((kept_added_mem _ _ c).mp hmem)
           | exact h4 c hc hmem
           | exact h6 c hc hmem)
      | exact kept_added_nodup _ _ hn4
      | exact kept_added_nodup _ _ hn6
      | exact hn4
      | exact hn6

/-- C6 amended witness at a concrete state and row. -/
theorem C6_witness :
    port_inv (portd_reconfig_ipaddr
        ⟨"eth0", some "10.0.0.1/24", none, ["9.9.9.9/24"], [], -1⟩
        ⟨"eth0", some "10.0.0.2/24", none, ["8.8.8.8/24"], [], 0⟩
        true false).1 :=
  C6_invariant_preserved
    ⟨"eth0", some "10.0.0.1/24", none, ["9.9.9.9/24"], [], -1⟩
    ⟨"eth0", some "10.0.0.2/24", none, ["8.8.8.8/24"], [], 0⟩
    true false (by decide)
    (by intro c hc; cases hc; decide)
    (by intro c hc; cases hc)

/-- The scan finds nothing exactly when no row passes the family filter and
the match predicate. -/
lemma del_route_scan_none_iff (is_v4 : Bool) (ps pn : String) :
    ∀ routes : List ovsrec_route,
      del_route_scan is_v4 ps pn routes = none ↔
        ∀ r ∈ routes,
          ¬(del_route_family_ok is_v4 r ∧ is_route_matched r ps pn) := by
  intro routes
  induction routes with
  | nil => simp [del_route_scan]
  | cons r rest ih =>
      rw [del_route_scan]
      split_ifs with h
      · simp only [List.forall_mem_cons]
        constructor
        · intro hc; exact absurd hc (by simp)
        · rintro ⟨hr, -⟩; exact absurd h hr
      · simp only [Option.map_eq_none', ih, List.forall_mem_cons]
        constructor
        · intro hr; exact ⟨h, hr⟩
        · rintro ⟨-, hr⟩; exact hr

/-- A successful scan returns a member row that passes filter and match. -/
lemma del_route_scan_some_mem (is_v4 : Bool) (ps pn : String) :
    ∀ (routes rest : List ovsrec_route) (r : ovsrec_route),
      del_route_scan is_v4 ps pn routes = some (r, rest) →
      r ∈ routes ∧ del_route_family_ok is_v4 r ∧ is_route_matched r ps pn := by
  intro routes
  induction routes with
  | nil => intro rest r h; simp [del_route_scan] at h
  | cons q qs ih =>
      intro rest r h
      rw [del_route_scan] at h
      split_ifs at h with hq
      · obtain ⟨rfl, -⟩ : q = r ∧ qs = rest := by
          simpa using h
        exact ⟨List.mem_cons_self q qs, hq⟩
      · rcases Option.map_eq_some'.mp h with ⟨⟨r2, rest2⟩, hscan, heq⟩
        have hre : r2 = r := by
          have := congrArg Prod.fst heq
          simpa using this
        subst hre
        rcases ih rest2 r2 hscan with ⟨hmem, hrest⟩
        exact ⟨List.mem_cons_of_mem q hmem, hrest⟩

/-- The scan removes exactly the first matching row. -/
lemma del_route_scan_first (is_v4 : Bool) (ps pn : String) :
    ∀ (pre : List ovsrec_route) (r : ovsrec_route) (post : List ovsrec_route),
      (∀ r2 ∈ pre,
        ¬(del_route_family_ok is_v4 r2 ∧ is_route_matched r2 ps pn)) →
      del_route_family_ok is_v4 r → is_route_matched r ps pn →
      del_route_scan is_v4 ps pn (pre ++ r :: post) = some (r, pre ++ post) := by
  intro pre
  induction pre with
  | nil =>
      intro r post _ hf hm
      rw [List.nil_append, del_route_scan, if_pos ⟨hf, hm⟩, List.nil_append]
  | cons q qs ih =>
      intro r post hpre hf hm
      rw [List.cons_append, del_route_scan,
        if_neg (hpre q (List.mem_cons_self q qs)),
        ih r post (fun r2 h2 => hpre r2 (List.mem_cons_of_mem _ h2)) hf hm]
      rfl

/-- C3: `portd_del_connected_route` (given that the address canonicalises)
returns `-1` with nothing deleted and no transaction operation exactly when
no route row matches — where matching means: prefix equal to the canonical
masked prefix, source `connected`, sub-family NULL or `unicast`, first
nexthop's first port equal to the port name, and the family filter passes
(NULL `address_family` counts for IPv4 deletes, never for IPv6) — and
otherwise deletes exactly the first matching row, emitting the nexthop
delete before the route delete. -/
theorem C3_del_connected_route_first_match (routes : List ovsrec_route)
    (address port_name : String) (is_v4 : Bool) (ps : String)
    (hps : route_prefix_str is_v4 address = some ps) :
    (portd_del_connected_route routes address port_name is_v4 =
        (-1, routes, []) ↔
      ∀ r ∈ routes,
        ¬(del_route_family_ok is_v4 r ∧ is_route_matched r ps port_name)) ∧
    (∀ pre r post,
        routes = pre ++ r :: post →
        (∀ r2 ∈ pre,
          ¬(del_route_family_ok is_v4 r2 ∧ is_route_matched r2 ps port_name)) →
        del_route_family_ok is_v4 r →
        is_route_matched r ps port_name →
        portd_del_connected_route routes address port_name is_v4 =
          (0, pre ++ post,
           [TxnEv.del_nexthop r.nexthops.head?, TxnEv.del_route r])) := by
  have hmain : portd_del_connected_route routes address port_name is_v4 =
      match del_route_scan is_v4 ps port_name routes with
      | none => (-1, routes, [])
      | some (r, rest) =>
          (0, rest, [TxnEv.del_nexthop r.nexthops.head?, TxnEv.del_route r]) := by
    simp only [portd_del_connected_route, hps]
  constructor
  · rw [hmain]
    cases hscan : del_route_scan is_v4 ps port_name routes with
    | none =>
        exact iff_of_true rfl
          ((del_route_scan_none_iff is_v4 ps port_name routes).mp hscan)
    | some pr =>
        rcases pr with ⟨r, rest⟩
        constructor
        · intro hcontra
          have h0 : (0 : Int) = -1 := congrArg Prod.fst hcontra
          exact absurd h0 (by decide)
        · intro hall
          rcases del_route_scan_some_mem is_v4 ps port_name routes rest r hscan
            with ⟨hmem, hok⟩
          exact absurd hok (hall r hmem)
  · intro pre r post hsplit hpre hf hm
    rw [hmain, hsplit,
      del_route_scan_first is_v4 ps port_name pre r post hpre hf hm]

/-- C3 witness: a table with a non-matching static row followed by the
matching connected row. -/
theorem C3_witness :
    portd_del_connected_route
        [⟨some "ipv4", "10.0.0.0/24", none, "static", [⟨["eth0"]⟩]⟩,
         ⟨some "ipv4", "10.0.0.0/24", some "unicast", "connected", [⟨["eth0"]⟩]⟩]
        "10.0.0.5/24" "eth0" true =
      (0, [⟨some "ipv4", "10.0.0.0/24", none, "static", [⟨["eth0"]⟩]⟩],
       [TxnEv.del_nexthop (some ⟨["eth0"]⟩),
        TxnEv.del_route
          ⟨some "ipv4", "10.0.0.0/24", some "unicast", "connected",
           [⟨["eth0"]⟩]⟩]) :=
  (C3_del_connected_route_first_match
      [⟨some "ipv4", "10.0.0.0/24", none, "static", [⟨["eth0"]⟩]⟩,
       ⟨some "ipv4", "10.0.0.0/24", some "unicast", "connected", [⟨["eth0"]⟩]⟩]
      "10.0.0.5/24" "eth0" true "10.0.0.0/24" (by rfl)).2
    [⟨some "ipv4", "10.0.0.0/24", none, "static", [⟨["eth0"]⟩]⟩]
    ⟨some "ipv4", "10.0.0.0/24", some "unicast", "connected", [⟨["eth0"]⟩]⟩
    [] (by rfl) (by decide) (by decide) (by decide)

/-- A hit in the DB port shash carries the looked-up name. -/
lemma shash_find_port_name (l : List port) (n : String) (p : port)
    (h : shash_find_port l n = some p) : p.name = n := by
  have := List.find?_some h
  simpa using this

/-- The address store folds over an appended operation list in two stages. -/
lemma apply_addr_ops_append (ifname : String) (fam : Fam) (init : List String)
    (l1 l2 : List Ev) :
    apply_addr_ops ifname fam init (l1 ++ l2) =
      apply_addr_ops ifname fam (apply_addr_ops ifname fam init l1) l2 :=
  List.foldl_append ..

/-- Operations aimed at another interface or family leave the store alone. -/
lemma apply_addr_ops_nop (ifname : String) (fam : Fam) :
    ∀ (ops : List Ev) (init : List String),
      (∀ cmd n a f s, Ev.set_ipaddr cmd n a f s ∈ ops → ¬(n = ifname ∧ f = fam)) →
      apply_addr_ops ifname fam init ops = init := by
  intro ops
  induction ops with
  | nil => intro init _; rfl
  | cons e rest ih =>
      intro init h
      have hrest : ∀ cmd n a f s, Ev.set_ipaddr cmd n a f s ∈ rest →
          ¬(n = ifname ∧ f = fam) :=
        fun cmd n a f s hm => h cmd n a f s (List.mem_cons_of_mem e hm)
      cases e with
      | set_ipaddr cmd n a f s =>
          have hne := h cmd n a f s (List.mem_cons_self _ _)
          cases cmd with
          | RTM_DELADDR =>
              have hstep : apply_addr_ops ifname fam init
                  (Ev.set_ipaddr Cmd.RTM_DELADDR n a f s :: rest) =
                  apply_addr_ops ifname fam
                    (if n = ifname ∧ f = fam then init.filter fun x => x ≠ a
                     else init) rest := rfl
              rw [hstep, if_neg hne]
              exact ih init hrest
          | RTM_NEWADDR =>
              have hstep : apply_addr_ops ifname fam init
                  (Ev.set_ipaddr Cmd.RTM_NEWADDR n a f s :: rest) =
                  apply_addr_ops ifname fam
                    (if n = ifname ∧ f = fam then a :: init else init) rest := rfl
              rw [hstep, if_neg hne]
              exact ih init hrest
      | del_route a pn v => exact ih init hrest
      | add_route a v => exact ih init hrest

/-- Applying a block of DELs for `addrs` keeps exactly the store entries
outside `addrs`. -/
lemma mem_apply_del_map (ifname : String) (fam : Fam) (b : Bool) (x : String) :
    ∀ (addrs init : List String),
      (x ∈ apply_addr_ops ifname fam init
        (addrs.map fun a => Ev.set_ipaddr Cmd.RTM_DELADDR ifname a fam b)) ↔
      x ∈ init ∧ x ∉ addrs := by
  intro addrs
  induction addrs with
  | nil => intro init; simp [apply_addr_ops]
  | cons a rest ih =>
      intro init
      have hstep : apply_addr_ops ifname fam init
          ((a :: rest).map fun a => Ev.set_ipaddr Cmd.RTM_DELADDR ifname a fam b) =
          apply_addr_ops ifname fam (init.filter fun y => y ≠ a)
            (rest.map fun a => Ev.set_ipaddr Cmd.RTM_DELADDR ifname a fam b) := by
        simp only [List.map_cons]
        show apply_addr_ops ifname fam
            (if ifname = ifname ∧ fam = fam then init.filter fun y => y ≠ a
             else init) _ = _
        rw [if_pos ⟨rfl, rfl⟩]
      rw [hstep, ih]
      simp only [List.mem_filter, List.mem_cons]
      constructor
      · rintro ⟨⟨h1, h2⟩, h3⟩
        refine ⟨h1, ?_⟩
        rintro (h4 | h4)
        · exact absurd (by simpa using h2) (by simp [h4])
        · exact h3 h4
      · rintro ⟨h1, h2⟩
        exact ⟨⟨h1, by simpa using fun he => h2 (Or.inl he)⟩,
          fun hr => h2 (Or.inr hr)⟩

/-- Applying a block of ADDs for `addrs` makes the store hold `addrs` plus
what it already held. -/
lemma mem_apply_add_map (ifname : String) (fam : Fam) (b : Bool) (x : String) :
    ∀ (addrs init : List String),
      (x ∈ apply_addr_ops ifname fam init
        (addrs.map fun a => Ev.set_ipaddr Cmd.RTM_NEWADDR ifname a fam b)) ↔
      x ∈ addrs ∨ x ∈ init := by
  intro addrs
  induction addrs with
  | nil => intro init; simp [apply_addr_ops]
  | cons a rest ih =>
      intro init
      have hstep : apply_addr_ops ifname fam init
          ((a :: rest).map fun a => Ev.set_ipaddr Cmd.RTM_NEWADDR ifname a fam b) =
          apply_addr_ops ifname fam (a :: init)
            (rest.map fun a => Ev.set_ipaddr Cmd.RTM_NEWADDR ifname a fam b) := by
        simp only [List.map_cons]
        show apply_addr_ops ifname fam
            (if ifname = ifname ∧ fam = fam then a :: init else init) _ = _
        rw [if_pos ⟨rfl, rfl⟩]
      rw [hstep, ih]
      simp only [List.mem_cons]
      tauto

/-- `portd_find_ip_addr_kernel` decides membership in the dumped family
set. -/
lemma find_kernel_iff (kp : kernel_port) (x : String) :
    (portd_find_ip_addr_kernel kp x false = true ↔ x ∈ kp.ip4addr) ∧
    (portd_find_ip_addr_kernel kp x true = true ↔ x ∈ kp.ip6addr) := by
  unfold portd_find_ip_addr_kernel
  simp [List.contains, List.elem_eq_mem]

/-- `portd_find_ip_addr_db` decides membership in the DB addresses of the
family. -/
lemma find_db_iff (p : port) (x : String) :
    (portd_find_ip_addr_db p x false = true ↔ x ∈ db_addrs Fam.af_inet p) ∧
    (portd_find_ip_addr_db p x true = true ↔ x ∈ db_addrs Fam.af_inet6 p) := by
  unfold portd_find_ip_addr_db db_addrs
  constructor <;>
    · simp only [Bool.or_eq_true, beq_iff_eq, List.contains, List.elem_eq_mem,
        decide_eq_true_eq, List.mem_append, Option.mem_toList, Option.mem_def,
        if_true, if_false, Bool.false_eq_true, ite_true, ite_false]

/-- Every operation emitted for one dumped interface names that interface. -/
lemma init_port_ops_names (dbl : List port) (kp : kernel_port) :
    ∀ cmd n a f s, Ev.set_ipaddr cmd n a f s ∈ portd_init_port_ops dbl kp →
      n = kp.name := by
  intro cmd n a f s h
  unfold portd_init_port_ops at h
  cases hfind : shash_find_port dbl kp.name with
  | none =>
      rw [hfind] at h
      rcases List.mem_append.mp h with h1 | h1 <;>
        · rcases List.mem_map.mp h1 with ⟨b, -, he⟩
          cases he
          rfl
  | some db_port =>
      have hname := shash_find_port_name dbl kp.name db_port hfind
      rw [hfind] at h
      simp only [List.append_assoc] at h
      rcases List.mem_append.mp h with h1 | h
      · rcases List.mem_map.mp h1 with ⟨b, -, he⟩
        cases he
        exact hname
      rcases List.mem_append.mp h with h1 | h
      · rcases List.mem_map.mp h1 with ⟨b, -, he⟩
        cases he
        exact hname
      rcases List.mem_append.mp h with h1 | h
      · cases hdb : db_port.ip4_address with
        | none =>
            rw [hdb] at h1
            exact absurd h1 (List.not_mem_nil _)
        | some b =>
            rw [hdb] at h1
            have h2 : Ev.set_ipaddr cmd n a f s ∈
                (if (!portd_find_ip_addr_kernel kp b false) = true then
                  [Ev.set_ipaddr Cmd.RTM_NEWADDR db_port.name b Fam.af_inet false]
                 else []) := h1
            split_ifs at h2
            · rw [List.mem_singleton] at h2
              cases h2
              exact hname
            · exact absurd h2 (List.not_mem_nil _)
      rcases List.mem_append.mp h with h1 | h
      · cases hdb : db_port.ip6_address with
        | none =>
            rw [hdb] at h1
            exact absurd h1 (List.not_mem_nil _)
        | some b =>
            rw [hdb] at h1
            have h2 : Ev.set_ipaddr cmd n a f s ∈
                (if (!portd_find_ip_addr_kernel kp b true) = true then
                  [Ev.set_ipaddr Cmd.RTM_NEWADDR db_port.name b Fam.af_inet6 false]
                 else []) := h1
            split_ifs at h2
            · rw [List.mem_singleton] at h2
              cases h2
              exact hname
            · exact absurd h2 (List.not_mem_nil _)
      rcases List.mem_append.mp h with h1 | h1 <;>
        · rcases List.mem_map.mp h1 with ⟨b, -, he⟩
          cases he
          exact hname

/-- The empty operation list leaves the store alone. -/
lemma apply_addr_ops_nil (ifname : String) (fam : Fam) (init : List String) :
    apply_addr_ops ifname fam init [] = init := rfl

/-- Applying one ADD for one address. -/
lemma mem_apply_add_single (ifname : String) (fam : Fam) (b : Bool)
    (x a : String) (init : List String) :
    (x ∈ apply_addr_ops ifname fam init
      [Ev.set_ipaddr Cmd.RTM_NEWADDR ifname a fam b]) ↔ x = a ∨ x ∈ init := by
  have := mem_apply_add_map ifname fam b x [a] init
  simpa using this

/-- Filtering on a negated kernel lookup keeps the entries absent from the
kernel family list. -/
lemma mem_filter_not_kernel (kp : kernel_port) (bb : Bool) (l : List String)
    (y : String) :
    (y ∈ l.filter fun a => !portd_find_ip_addr_kernel kp a bb) ↔
      (y ∈ l ∧ y ∉ (if bb then kp.ip6addr else kp.ip4addr)) := by
  rw [List.mem_filter]
  refine and_congr_right fun _ => ?_
  cases hb : portd_find_ip_addr_kernel kp y bb
  · simp only [Bool.not_false]
    refine iff_of_true (by trivial) fun hm => ?_
    cases bb
    · rw [(find_kernel_iff kp y).1.mpr (by simpa using hm)] at hb
      cases hb
    · rw [(find_kernel_iff kp y).2.mpr (by simpa using hm)] at hb
      cases hb
  · simp only [Bool.not_true]
    refine iff_of_false (by simp) (not_not_intro ?_)
    cases bb
    · simpa using (find_kernel_iff kp y).1.mp hb
    · simpa using (find_kernel_iff kp y).2.mp hb

/-- Filtering on a negated DB lookup keeps the entries absent from the DB
addresses of the family. -/
lemma mem_filter_not_db (p : port) (bb : Bool) (l : List String) (y : String) :
    (y ∈ l.filter fun a => !portd_find_ip_addr_db p a bb) ↔
      (y ∈ l ∧
        y ∉ db_addrs (if bb then Fam.af_inet6 else Fam.af_inet) p) := by
  rw [List.mem_filter]
  refine and_congr_right fun _ => ?_
  cases hb : portd_find_ip_addr_db p y bb
  · simp only [Bool.not_false]
    refine iff_of_true (by trivial) fun hm => ?_
    cases bb
    · rw [(find_db_iff p y).1.mpr (by simpa using hm)] at hb
      cases hb
    · rw [(find_db_iff p y).2.mpr (by simpa using hm)] at hb
      cases hb
  · simp only [Bool.not_true]
    refine iff_of_false (by simp) (not_not_intro ?_)
    cases bb
    · simpa using (find_db_iff p y).1.mp hb
    · simpa using (find_db_iff p y).2.mp hb

/-- After the startup loop body for a dumped interface with a DB port of
the same name, the interface's address store of each family holds exactly
the DB addresses of that family. -/
lemma apply_init_port_found (dbl : List port) (kp : kernel_port)
    (db_port : port) (hfind : shash_find_port dbl kp.name = some db_port)
    (x : String) :
    ((x ∈ apply_addr_ops kp.name Fam.af_inet kp.ip4addr
        (portd_init_port_ops dbl kp)) ↔ x ∈ db_addrs Fam.af_inet db_port) ∧
    ((x ∈ apply_addr_ops kp.name Fam.af_inet6 kp.ip6addr
        (portd_init_port_ops dbl kp)) ↔ x ∈ db_addrs Fam.af_inet6 db_port) := by
  have hname := shash_find_port_name dbl kp.name db_port hfind
  unfold portd_init_port_ops
  rw [hfind]
  simp only [hname]
  have killDel : ∀ (fam : Fam) (bb : Bool) (fam2 : Fam), fam2 ≠ fam →
      ∀ (l : List String) (init' : List String),
        apply_addr_ops kp.name fam init'
          ((l.filter fun a => !portd_find_ip_addr_db db_port a bb).map
            fun a => Ev.set_ipaddr Cmd.RTM_DELADDR kp.name a fam2 false) =
          init' := by
    intro fam bb fam2 hne l init'
    refine apply_addr_ops_nop _ _ _ init' ?_
    intro cmd n a f s hm
    rcases List.mem_map.mp hm with ⟨b, -, he⟩
    cases he
    rintro ⟨-, hf⟩
    exact hne hf
  have killPrim : ∀ (fam : Fam) (o : Option String) (bb : Bool) (fam2 : Fam),
      fam2 ≠ fam →
      ∀ init' : List String,
        apply_addr_ops kp.name fam init'
          (match o with
           | some a =>
               if (!portd_find_ip_addr_kernel kp a bb) = true then
                 [Ev.set_ipaddr Cmd.RTM_NEWADDR kp.name a fam2 false]
               else []
           | none => []) = init' := by
    intro fam o bb fam2 hne init'
    cases o with
    | none => rfl
    | some a =>
        show apply_addr_ops kp.name fam init'
            (if (!portd_find_ip_addr_kernel kp a bb) = true then
              [Ev.set_ipaddr Cmd.RTM_NEWADDR kp.name a fam2 false]
             else []) = init'
        split_ifs with hk
        · refine apply_addr_ops_nop _ _ _ init' ?_
          intro cmd n a2 f s hm
          rw [List.mem_singleton] at hm
          cases hm
          rintro ⟨-, hf⟩
          exact hne hf
        · rfl
  have killSec : ∀ (fam : Fam) (l : List String) (bb : Bool) (fam2 : Fam),
      fam2 ≠ fam →
      ∀ init' : List String,
        apply_addr_ops kp.name fam init'
          ((l.filter fun a => !portd_find_ip_addr_kernel kp a bb).map
            fun a => Ev.set_ipaddr Cmd.RTM_NEWADDR kp.name a fam2 true) =
          init' := by
    intro fam l bb fam2 hne init'
    refine apply_addr_ops_nop _ _ _ init' ?_
    intro cmd n a f s hm
    rcases List.mem_map.mp hm with ⟨b, -, he⟩
    cases he
    rintro ⟨-, hf⟩
    exact hne hf
  have hprim : ∀ (fam : Fam) (o : Option String) (bb : Bool)
      (kl : List String), (if bb then kp.ip6addr else kp.ip4addr) = kl →
      ∀ init' : List String,
        (x ∈ apply_addr_ops kp.name fam init'
          (match o with
           | some a =>
               if (!portd_find_ip_addr_kernel kp a bb) = true then
                 [Ev.set_ipaddr Cmd.RTM_NEWADDR kp.name a fam false]
               else []
           | none => [])) ↔
        ((o = some x ∧ x ∉ kl) ∨ x ∈ init') := by
    intro fam o bb kl hkl init'
    cases o with
    | none =>
        rw [apply_addr_ops_nil]
        exact (or_iff_right (by rintro ⟨h, -⟩; cases h)).symm
    | some a =>
        show (x ∈ apply_addr_ops kp.name fam init'
            (if (!portd_find_ip_addr_kernel kp a bb) = true then
              [Ev.set_ipaddr Cmd.RTM_NEWADDR kp.name a fam false]
             else [])) ↔ ((some a = some x ∧ x ∉ kl) ∨ x ∈ init')
        split_ifs with hk
        · rw [mem_apply_add_single]
          constructor
          · rintro (rfl | hi)
            · refine Or.inl ⟨rfl, ?_⟩
              subst hkl
              rw [Bool.not_eq_true'] at hk
              cases bb
              · intro hm
                rw [(find_kernel_iff kp x).1.mpr (by simpa using hm)] at hk
                cases hk
              · intro hm
                rw [(find_kernel_iff kp x).2.mpr (by simpa using hm)] at hk
                cases hk
            · exact Or.inr hi
          · rintro (⟨ha, -⟩ | hi)
            · cases ha
              exact Or.inl rfl
            · exact Or.inr hi
        · rw [apply_addr_ops_nil]
          constructor
          · exact Or.inr
          · rintro (⟨ha, hnk⟩ | hi)
            · cases ha
              subst hkl
              rw [Bool.not_eq_true', Bool.not_eq_false] at hk
              cases bb
              · exact absurd (by simpa using (find_kernel_iff kp x).1.mp hk) hnk
              · exact absurd (by simpa using (find_kernel_iff kp x).2.mp hk) hnk
            · exact hi
  have hD4 : x ∈ db_addrs Fam.af_inet db_port ↔
      (db_port.ip4_address = some x ∨ x ∈ db_port.secondary_ip4addr) := by
    unfold db_addrs
    simp [Option.mem_toList, Option.mem_def]
  have hD6 : x ∈ db_addrs Fam.af_inet6 db_port ↔
      (db_port.ip6_address = some x ∨ x ∈ db_port.secondary_ip6addr) := by
    unfold db_addrs
    simp [Option.mem_toList, Option.mem_def]
  constructor
  · rw [apply_addr_ops_append, apply_addr_ops_append, apply_addr_ops_append,
      apply_addr_ops_append, apply_addr_ops_append]
    rw [killDel Fam.af_inet true Fam.af_inet6 (by decide),
      killPrim Fam.af_inet db_port.ip6_address true Fam.af_inet6 (by decide),
      killSec Fam.af_inet db_port.secondary_ip6addr true Fam.af_inet6
        (by decide)]
    rw [mem_apply_add_map,
      hprim Fam.af_inet db_port.ip4_address false kp.ip4addr (by simp),
      mem_apply_del_map, mem_filter_not_kernel]
    have hdel := mem_filter_not_db db_port false kp.ip4addr
    simp only [if_true, if_false, Bool.false_eq_true, ite_true, ite_false]
      at hdel
    rw [hdel x, hD4]
    by_cases hP : db_port.ip4_address = some x <;>
      by_cases hS : x ∈ db_port.secondary_ip4addr <;>
      by_cases hK : x ∈ kp.ip4addr <;>
      simp [hP, hS, hK, hD4]
  · rw [apply_addr_ops_append, apply_addr_ops_append, apply_addr_ops_append,
      apply_addr_ops_append, apply_addr_ops_append]
    rw [killDel Fam.af_inet6 false Fam.af_inet (by decide),
      killPrim Fam.af_inet6 db_port.ip4_address false Fam.af_inet (by decide),
      killSec Fam.af_inet6 db_port.secondary_ip4addr false Fam.af_inet
        (by decide)]
    rw [mem_apply_add_map,
      hprim Fam.af_inet6 db_port.ip6_address true kp.ip6addr (by simp),
      mem_apply_del_map, mem_filter_not_kernel]
    have hdel := mem_filter_not_db db_port true kp.ip6addr
    simp only [if_true, if_false, ite_true, ite_false] at hdel
    rw [hdel x, hD6]
    by_cases hP : db_port.ip6_address = some x <;>
      by_cases hS : x ∈ db_port.secondary_ip6addr <;>
      by_cases hK : x ∈ kp.ip6addr <;>
      simp [hP, hS, hK, hD6]

/-- C1 counterexample: the claim includes ports whose interface had no
kernel address before startup, but the reconciler only iterates over dumped
kernel interfaces: with an empty dump it emits no operation at all, so the
CONFIG port `eth0`'s primary address is never added to the kernel. -/
theorem C1_counterexample :
    portd_ipaddr_config_on_init
        [⟨[⟨"eth0", some "10.0.0.1/24", none, [], [], 0⟩]⟩] [] = [] ∧
    shash_find_port
        (portd_populate_db_ip_addr
          [⟨[⟨"eth0", some "10.0.0.1/24", none, [], [], 0⟩]⟩]) "eth0" =
      some ⟨"eth0", some "10.0.0.1/24", none, [], [], -1⟩ ∧
    ("10.0.0.1/24" ∈
      db_addrs Fam.af_inet ⟨"eth0", some "10.0.0.1/24", none, [], [], -1⟩) ∧
    ¬ ("10.0.0.1/24" ∈ apply_addr_ops "eth0" Fam.af_inet []
        (portd_ipaddr_config_on_init
          [⟨[⟨"eth0", some "10.0.0.1/24", none, [], [], 0⟩]⟩] [])) := by
  decide

/-- C1 amended: after the startup reconciler, for every interface that
appears in the kernel dump and has a CONFIG port of the same name, the
kernel address set of each family on that interface equals the union of the
CONFIG primary and secondary addresses of the family (interfaces absent
from the dump — in particular those with no kernel addresses — receive no
operations). -/
theorem C1_startup_convergence_on_dumped_ports (all_vrfs : List ovsrec_vrf)
    (kpl : List kernel_port) (kp : kernel_port) (db_port : port) (fam : Fam)
    (x : String)
    (hnodup : (kpl.map kernel_port.name).Nodup)
    (hmem : kp ∈ kpl)
    (hfind : shash_find_port (portd_populate_db_ip_addr all_vrfs) kp.name =
      some db_port) :
    (x ∈ apply_addr_ops kp.name fam (kernel_addrs fam kp)
        (portd_ipaddr_config_on_init all_vrfs kpl)) ↔
      x ∈ db_addrs fam db_port := by
  obtain ⟨l1, l2, rfl⟩ := List.append_of_mem hmem
  unfold portd_ipaddr_config_on_init
  rw [List.flatMap_append, List.flatMap_cons, apply_addr_ops_append,
    apply_addr_ops_append]
  rw [List.map_append, List.map_cons, List.nodup_append] at hnodup
  obtain ⟨-, h2nd, hdisj⟩ := hnodup
  have hkp_notin_l2 : kp.name ∉ l2.map kernel_port.name :=
    (List.nodup_cons.mp h2nd).1
  have hkp_notin_l1 : kp.name ∉ l1.map kernel_port.name :=
    fun hmem1 => hdisj hmem1 (List.mem_cons_self _ _)
  have hl1 : apply_addr_ops kp.name fam (kernel_addrs fam kp)
      (l1.flatMap
        (portd_init_port_ops (portd_populate_db_ip_addr all_vrfs))) =
      kernel_addrs fam kp := by
    apply apply_addr_ops_nop
    intro cmd n a f s hm
    rcases List.mem_flatMap.mp hm with ⟨kp', hkp', hop⟩
    have hn := init_port_ops_names _ kp' cmd n a f s hop
    rintro ⟨heq, -⟩
    exact hkp_notin_l1 ((hn ▸ heq) ▸ List.mem_map_of_mem kernel_port.name hkp')
  rw [hl1]
  have hl2 : ∀ init' : List String,
      apply_addr_ops kp.name fam init'
        (l2.flatMap
          (portd_init_port_ops (portd_populate_db_ip_addr all_vrfs))) =
        init' := by
    intro init'
    apply apply_addr_ops_nop
    intro cmd n a f s hm
    rcases List.mem_flatMap.mp hm with ⟨kp', hkp', hop⟩
    have hn := init_port_ops_names _ kp' cmd n a f s hop
    rintro ⟨heq, -⟩
    exact hkp_notin_l2 ((hn ▸ heq) ▸ List.mem_map_of_mem kernel_port.name hkp')
  rw [hl2]
  cases fam with
  | af_inet =>
      exact (apply_init_port_found (portd_populate_db_ip_addr all_vrfs) kp
        db_port hfind x).1
  | af_inet6 =>
      exact (apply_init_port_found (portd_populate_db_ip_addr all_vrfs) kp
        db_port hfind x).2

/-- C1 amended witness at a concrete startup scenario (spec scenario S4
plus a secondary address). -/
theorem C1_witness :
    ("10.0.0.9/24" ∈ apply_addr_ops "eth0" Fam.af_inet
        (kernel_addrs Fam.af_inet ⟨"eth0", ["10.0.0.1/24", "192.0.2.99/24"], []⟩)
        (portd_ipaddr_config_on_init
          [⟨[⟨"eth0", some "10.0.0.1/24", none, ["10.0.0.9/24"], [], 0⟩]⟩]
          [⟨"eth0", ["10.0.0.1/24", "192.0.2.99/24"], []⟩])) ↔
      "10.0.0.9/24" ∈ db_addrs Fam.af_inet
        ⟨"eth0", some "10.0.0.1/24", none, ["10.0.0.9/24"], [], -1⟩ :=
  C1_startup_convergence_on_dumped_ports
    [⟨[⟨"eth0", some "10.0.0.1/24", none, ["10.0.0.9/24"], [], 0⟩]⟩]
    [⟨"eth0", ["10.0.0.1/24", "192.0.2.99/24"], []⟩]
    ⟨"eth0", ["10.0.0.1/24", "192.0.2.99/24"], []⟩
    ⟨"eth0", some "10.0.0.1/24", none, ["10.0.0.9/24"], [], -1⟩
    Fam.af_inet "10.0.0.9/24" (by decide) (by decide) (by decide)

end Portd
